import Mathlib

/-!
Verification of the per-datapoint statistics-and-filtering pass of
`xps_plotter.py` (XPS spectra plotter with error-based datapoint exclusion).

Numeric values parsed from the scan files are modelled as rationals.  A token
of a split line is `Option ℚ`: `some q` when Python `float()` parses the token
to the value `q`, and `none` when `float()` would raise `ValueError` (this also
covers the junk token after the trailing tab, which the program never parses).

The program stores `point_standard_deviation = sqrt(point_variance)` and
compares it with the user threshold.  To keep the embedding executable we
carry the rational `point_variance` through the state and perform the
comparison on squares (`stdExceeds`); the lemma `stdExceeds_iff_sqrt` proves
that this decision coincides exactly with the source comparison
`sqrt(point_variance) > std_input`, which is stated over `Real.sqrt`.
-/

namespace Xps

/-- A token of a split input line: `some q` when Python float() parses it to
the rational `q`, `none` when float() raises ValueError on it. -/
abbrev Tok := Option ℚ

/-- One data line, as the list produced by `line.split(delimit)` after the
alternative-delimiter replacement (source lines 243-246).  A real data line
`e<TAB>i1<TAB>...<TAB>sum<TAB>\n` splits into the energy token, the sweep
tokens, the sum token and one trailing junk token. -/
abbrev Line := List Tok

/-- One tuple printed to std_file.txt (source line 303):
(filename, datapoint_number, line_number, point_standard_deviation).
We record the variance; the printed standard deviation is its square root. -/
structure StdEntry where
  filename : String
  datapoint_number : ℕ
  line_number : ℕ
  variance : ℚ
deriving DecidableEq

/-- Ghost instrumentation (not a source variable): the
(binding_energy, mean_intensity) pair appended for a datapoint, with its file
and number.  Used only to state claims about which entries survive
filtering; it never influences control flow. -/
structure InsEntry where
  filename : String
  binding_energy : ℚ
  mean_intensity : ℚ
  datapoint_number : ℕ
deriving DecidableEq

/-- The enclosing-scope variables read by `standard_deviation_threshold`
(source lines 186-197).  `point_variance` is the square of the stored
`point_standard_deviation`. -/
structure DP where
  point_variance : ℚ
  binding_energy : ℚ
  mean_intensity : ℚ
  datapoint_number : ℕ
deriving DecidableEq

/-- The mutable module-level state of the script.  `xaxis`, `yaxis`,
`standard_deviations_list`, `excluded_point_numbers`,
`included_point_numbers` are re-initialised per file (source lines 223-227);
`fp_xaxis`/`fp_yaxis` accumulate across the whole run (lines 74-75).
`std_log`, `excluded_log` and `included_log` model the contents appended to
the three report files.  `last` models the enclosing-scope datapoint
variables left over from the most recent filter invocation (`none` when they
were never assigned, which in Python raises NameError on access). -/
structure St where
  line_number : ℕ
  xaxis : List ℚ
  yaxis : List ℚ
  fp_xaxis : List ℚ
  fp_yaxis : List ℚ
  standard_deviations_list : List ℚ
  excluded_point_numbers : List ℕ
  included_point_numbers : List ℕ
  std_log : List StdEntry
  excluded_log : List (String × List ℕ)
  included_log : List (String × List ℕ)
  inserted : List InsEntry
  last : Option DP
deriving DecidableEq

/-- State at program start: every list empty, no datapoint variables assigned. -/
def initSt : St :=
  { line_number := 1, xaxis := [], yaxis := [], fp_xaxis := [], fp_yaxis := []
    standard_deviations_list := [], excluded_point_numbers := []
    included_point_numbers := [], std_log := [], excluded_log := []
    included_log := [], inserted := [], last := none }

/-- The source comparison `point_standard_deviation > float(std_input)`, i.e.
`sqrt(point_variance) > std_input`, decided on rationals: for a threshold
below zero the nonnegative standard deviation always exceeds it, and for a
nonnegative threshold `sqrt v > t` holds iff `t * t < v`.  The lemma
`stdExceeds_iff_sqrt` below proves this equal to the `Real.sqrt` comparison. -/
def stdExceeds (point_variance std_input : ℚ) : Bool :=
  decide (std_input < 0) || decide (std_input * std_input < point_variance)

/-- Python `list.remove(a)`: removes the first occurrence of `a`, raising
ValueError (`none`) when `a` is absent. -/
def listRemove (a : ℚ) (l : List ℚ) : Option (List ℚ) :=
  if a ∈ l then some (l.erase a) else none

/-- How a call of `standard_deviation_threshold` can abort: ValueError from
`list.remove` (uncaught, kills the program), or the caught NameError which
prints the wrong-folder message and calls `exit()` (source lines 198-203). -/
inductive FilterErr where
  | valueError : FilterErr
  | wrongFolderExit : FilterErr
deriving DecidableEq

/-- Source lines 186-203.  Reads the enclosing-scope datapoint variables
(`current`); when they were never assigned, Python raises NameError, which
the function catches and converts into the wrong-folder message plus
`exit()`.  Above the threshold it removes binding_energy from `xaxis` and
`fp_xaxis` and mean_intensity from `yaxis` and `fp_yaxis` (in that order,
matching `axes[0::2]` then `axes[1::2]`) and appends the datapoint number to
the excluded list; otherwise it appends the number to the included list. -/
def standard_deviation_threshold (std_input : ℚ) (current : Option DP) (s : St) :
    Except FilterErr St :=
  match current with
  | none => .error .wrongFolderExit
  | some d =>
    if stdExceeds d.point_variance std_input then
      match listRemove d.binding_energy s.xaxis with
      | none => .error .valueError
      | some xa =>
        match listRemove d.binding_energy s.fp_xaxis with
        | none => .error .valueError
        | some fxa =>
          match listRemove d.mean_intensity s.yaxis with
          | none => .error .valueError
          | some ya =>
            match listRemove d.mean_intensity s.fp_yaxis with
            | none => .error .valueError
            | some fya =>
              .ok { s with xaxis := xa, fp_xaxis := fxa, yaxis := ya, fp_yaxis := fya
                           excluded_point_numbers :=
                             s.excluded_point_numbers ++ [d.datapoint_number] }
    else
      .ok { s with included_point_numbers :=
                     s.included_point_numbers ++ [d.datapoint_number] }

/-- Outcome of one execution of the while-loop body (source lines 234-310). -/
inductive LineOutcome where
  | next : St → LineOutcome
  | contSame : St → LineOutcome
  | fatal : St → LineOutcome
deriving DecidableEq

/-- Run the Python `float()` conversions of the variance loop (source lines
290-293) over the intensity tokens; the first unparseable token raises. -/
def sequenceFields : List Tok → Option (List ℚ)
  | [] => some []
  | none :: _ => none
  | some q :: rest => (sequenceFields rest).map (fun l => q :: l)

/-- Source lines 274-285: the slice of the split line that the variance loop
iterates over — the sweep intensities for a multi-sweep line, the single
intensity for a one-sweep line, and the (unreachable under a nonnegative
sweep count) empty fallback with its warning print. -/
def intensitiesOf (datapoint : Line) : List Tok :=
  if 3 < datapoint.length then (datapoint.drop 1).take (datapoint.length - 3)
  else if datapoint.length = 3 then (datapoint.drop 1).take 1
  else []

/-- Source lines 271-308: the part of the loop body from the `yaxis` append
once `mean_intensity` is known, through the intensity-list slicing, the
variance loop, the std_file write and the threshold-filter call.  `s` is the
state after the x-axis appends.  An unparseable intensity token makes the
`float()` in the variance loop raise (fatal); an empty intensity list would
make the division by its length raise ZeroDivisionError (fatal; this branch
is unreachable when the sweep count is nonnegative). -/
def lineTail (std_input : ℚ) (filename : String) (datapoint : Line)
    (binding_energy mean_intensity : ℚ) (datapoint_number line_number : ℕ)
    (s : St) : LineOutcome :=
  let s3 : St :=
    { s with yaxis := s.yaxis ++ [mean_intensity]
             fp_yaxis := s.fp_yaxis ++ [mean_intensity]
             inserted := s.inserted ++
               [⟨filename, binding_energy, mean_intensity, datapoint_number⟩] }
  match sequenceFields (intensitiesOf datapoint) with
  | none => .fatal s3
  | some xs =>
    if xs.length = 0 then .fatal s3
    else
      let point_variance : ℚ :=
        (xs.map (fun x => (x - mean_intensity) * (x - mean_intensity))).sum /
          (xs.length : ℚ)
      let d : DP := ⟨point_variance, binding_energy, mean_intensity, datapoint_number⟩
      let s4 : St :=
        { s3 with standard_deviations_list :=
                    s3.standard_deviations_list ++ [point_variance]
                  std_log := s3.std_log ++
                    [⟨filename, datapoint_number, line_number, point_variance⟩]
                  last := some d }
      match standard_deviation_threshold std_input (some d) s4 with
      | .ok s5 => .next s5
      | .error _ => .fatal s4

/-- Source lines 234-310: one execution of the while-loop body on the current
line.  `contSame` is the `continue` of the `num_sweeps < 0` branch (line
270), which repeats the loop on the same line because it skips the
`readline()` at line 310.  `fatal` is an uncaught exception: ValueError from
`float(datapoint[0])` when the first token is unparseable (the empty token
list, which `split` can never produce, is folded into the same outcome). -/
def lineStep (photon_energy std_input : ℚ) (filename : String)
    (datapoint : Line) (s : St) : LineOutcome :=
  let line_number := s.line_number + 1
  let datapoint_number := line_number - 1
  let s1 : St := { s with line_number := line_number }
  match datapoint.head? with
  | none => .fatal s1
  | some none => .fatal s1
  | some (some kinetic_energy) =>
    let binding_energy := photon_energy - kinetic_energy
    let s2 : St := { s1 with xaxis := s1.xaxis ++ [binding_energy]
                             fp_xaxis := s1.fp_xaxis ++ [binding_energy] }
    let intensity_sum_index : ℤ := (datapoint.length : ℤ) - 2
    let num_sweeps : ℤ := intensity_sum_index - 1
    if 0 < num_sweeps then
      match datapoint.getD (datapoint.length - 2) none with
      | none => .fatal s2
      | some sumv =>
        lineTail std_input filename datapoint binding_energy
          (sumv / (num_sweeps : ℚ)) datapoint_number line_number s2
    else if num_sweeps = 0 then
      match datapoint.getD (datapoint.length - 2) none with
      | none => .fatal s2
      | some sumv =>
        lineTail std_input filename datapoint binding_energy
          (sumv / 1) datapoint_number line_number s2
    else
      .contSame s2

/-- Outcome of running the while loop of one file to the end. -/
inductive RunOutcome where
  | ok : St → RunOutcome
  | fatal : St → RunOutcome
  | spin : St → RunOutcome
deriving DecidableEq

/-- The state carried by any loop outcome. -/
def RunOutcome.state : RunOutcome → St
  | .ok s => s
  | .fatal s => s
  | .spin s => s

/-- The while loop (source lines 234-310) over the remaining data lines,
with explicit fuel: a `contSame` (`continue`) iteration re-processes the same
line, so exhausted fuel (`spin`) models the resulting endless loop. -/
def loopRun (photon_energy std_input : ℚ) (filename : String) :
    ℕ → List Line → St → RunOutcome
  | _, [], s => .ok s
  | 0, _ :: _, s => .spin s
  | fuel + 1, l :: rest, s =>
    match lineStep photon_energy std_input filename l s with
    | .next s2 => loopRun photon_energy std_input filename fuel rest s2
    | .contSame s2 => loopRun photon_energy std_input filename fuel (l :: rest) s2
    | .fatal s2 => .fatal s2

/-- Source lines 220-337: processing of one file.  The per-file lists are
re-initialised (lines 223-227), one header line is consumed before the loop
(lines 231-233 with numhead = 1), the loop runs over the remaining lines,
and the per-file excluded/included report lines are appended (lines
329-337). -/
def processFile (photon_energy std_input : ℚ) (fuel : ℕ) (filename : String)
    (fileLines : List Line) (s : St) : RunOutcome :=
  let s0 : St :=
    { s with xaxis := [], yaxis := [], standard_deviations_list := []
             excluded_point_numbers := [], included_point_numbers := []
             line_number := 1 }
  match loopRun photon_energy std_input filename fuel (fileLines.drop 1) s0 with
  | .ok s1 =>
    .ok { s1 with
            excluded_log := s1.excluded_log ++ [(filename, s1.excluded_point_numbers)]
            included_log := s1.included_log ++ [(filename, s1.included_point_numbers)] }
  | .fatal s1 => .fatal s1
  | .spin s1 => .spin s1

/-- The outer for-loop over the discovered .dat files (source line 208). -/
def runFiles (photon_energy std_input : ℚ) (fuel : ℕ) :
    List (String × List Line) → St → RunOutcome
  | [], s => .ok s
  | (filename, ls) :: rest, s =>
    match processFile photon_energy std_input fuel filename ls s with
    | .ok s2 => runFiles photon_energy std_input fuel rest s2
    | .fatal s2 => .fatal s2
    | .spin s2 => .spin s2

/-- Names of the three report files (source line 138). -/
def output_file : List String :=
  ["std_file.txt", "excluded_datapoints_file.txt", "included_datapoints_file.txt"]

/-- Python `==` between a list and a string: values of different types are
never equal, so the comparison `output_file == "I"` at source line 350 is
always False. -/
def pyEqListString (_l : List String) (_s : String) : Bool := false

/-- Source lines 349-355: the final combined plot (saved unconditionally at
line 346) is removed exactly when `output_plot_choice == "i" or output_file
== "I"` holds; the second disjunct compares the report-file name list with a
string. -/
def removeFinalPlot (output_plot_choice : String) : Bool :=
  output_plot_choice == "i" || pyEqListString output_file "I"

/-- Source lines 123-126: the accepted output-mode letters. -/
def validChoice (c : String) : Bool :=
  c == "i" || c == "b" || c == "f" || c == "I" || c == "B" || c == "F"

/-- Python `max` over a list: ValueError (`none`) on an empty list. -/
def maxQ (l : List ℚ) : Option ℚ := l.max?

/-- Outcome of the whole program after the user prompts. -/
inductive RunResult where
  | completed : St → ℚ → Bool → RunResult
  | wrongFolderExit : St → RunResult
  | fatalError : St → RunResult
  | noTermination : St → RunResult
deriving DecidableEq

/-- Source lines 206-366: the file loop, the post-loop call of
`standard_deviation_threshold` (line 340) on whatever datapoint variables
are left in scope, the combined-plot save and conditional removal (lines
343-355), and the final summary `max(standard_deviations_list)` (line 362).
`completed s m onDisk` carries the final state, the maximum variance whose
square root the summary prints, and whether the combined-plot file is still
on disk. -/
def fullRun (photon_energy std_input : ℚ) (fuel : ℕ)
    (output_plot_choice : String) (files : List (String × List Line)) : RunResult :=
  match runFiles photon_energy std_input fuel files initSt with
  | .fatal s => .fatalError s
  | .spin s => .noTermination s
  | .ok s =>
    match standard_deviation_threshold std_input s.last s with
    | .error .wrongFolderExit => .wrongFolderExit s
    | .error .valueError => .fatalError s
    | .ok s2 =>
      let onDisk := !(removeFinalPlot output_plot_choice)
      match maxQ s2.standard_deviations_list with
      | none => .fatalError s2
      | some m => .completed s2 m onDisk

/-- Whether the run reached the final summary prints. -/
def RunResult.isCompleted : RunResult → Bool
  | .completed _ _ _ => true
  | _ => false

/-- The state carried by any run result. -/
def RunResult.finalState : RunResult → St
  | .completed s _ _ => s
  | .wrongFolderExit s => s
  | .fatalError s => s
  | .noTermination s => s

/-- The maximum variance underlying the printed summary, when reached. -/
def RunResult.summaryVariance : RunResult → Option ℚ
  | .completed _ m _ => some m
  | _ => none

/-- Whether the combined-plot file is on disk at the end, when the run
completed. -/
def RunResult.finalPlotOnDisk : RunResult → Option Bool
  | .completed _ _ b => some b
  | _ => none

/-- The standard deviation the program stores and prints for a datapoint
whose squared deviation mean is `v`. -/
noncomputable def point_standard_deviation (v : ℚ) : ℝ := Real.sqrt (v : ℝ)

/-- Specification wording (§4.2): mean_intensity = sum_column / max(sweep_count, 1). -/
def specMeanIntensity (sum_column : ℚ) (sweep_count : ℕ) : ℚ :=
  sum_column / ((max sweep_count 1 : ℕ) : ℚ)

/-- Specification wording (§4.2 and claim C1): population standard deviation
over the sweep-intensities list with divisor equal to the sweep count and
reference mean `mean_intensity`. -/
noncomputable def specStdDev (intensities : List ℚ) (mean_intensity : ℚ)
    (sweep_count : ℕ) : ℝ :=
  Real.sqrt ((((intensities.map (fun x => (x - mean_intensity) ^ 2)).sum : ℚ) : ℝ) /
    (sweep_count : ℝ))

/-- The state carried by any line outcome. -/
def LineOutcome.state : LineOutcome → St
  | .next s => s
  | .contSame s => s
  | .fatal s => s

/-- Whether a line outcome is the `continue` path that repeats the loop on
the same line. -/
def LineOutcome.isContSame : LineOutcome → Bool
  | .contSame _ => true
  | _ => false

/-- Whether a file-loop outcome is a normal completion. -/
def RunOutcome.isOk : RunOutcome → Bool
  | .ok _ => true
  | _ => false

/-- Whether the whole run died with an uncaught exception. -/
def RunResult.isFatalError : RunResult → Bool
  | .fatalError _ => true
  | _ => false

/-- Claim wording (C4): the datapoint numbers recorded as excluded for a
given file, read off the excluded-points report log. -/
def excludedNumbersFor (filename : String) (s : St) : List ℕ :=
  ((s.excluded_log.filter (fun p => p.1 == filename)).map Prod.snd).flatten

/-- Claim wording (C4): the concatenation, in processing order, of the
(binding_energy, mean_intensity) pairs of the datapoints that survived
filtering (their numbers were not recorded as excluded for their file). -/
def survivingPairs (s : St) : List (ℚ × ℚ) :=
  (s.inserted.filter
    (fun e => !((excludedNumbersFor e.filename s).contains e.datapoint_number))).map
    (fun e => (e.binding_energy, e.mean_intensity))

/-- A header line: its tokens are never parsed, so their values are
irrelevant; one junk token suffices. -/
def headerLine : Line := [none]

/-- A well-formed two-sweep data line: kinetic energy, the two sweep
intensities, the sum column and the trailing junk token. -/
def twoSweepLine (ke i1 i2 sumv : ℚ) : Line :=
  [some ke, some i1, some i2, some sumv, none]

/-- Concrete file with a duplicated binding energy: datapoint 3 is excluded
(variance 900) and shares its binding energy with datapoint 1.  Used for the
value-identity removal defect. -/
def fileDup : List Line :=
  [headerLine, twoSweepLine 95 10 10 20, twoSweepLine 94 20 20 40,
   twoSweepLine 95 0 60 60, twoSweepLine 93 40 40 80]

/-- Concrete file whose single datapoint has variance 100. -/
def fileBigVar : List Line := [headerLine, twoSweepLine 95 0 20 20]

/-- Concrete file whose single datapoint has variance 4. -/
def fileSmallVar : List Line := [headerLine, twoSweepLine 95 4 8 12]

/-- Concrete file whose single datapoint has variance 0 (always included). -/
def fileGood : List Line := [headerLine, twoSweepLine 95 10 10 20]

/-- Concrete file whose last datapoint is excluded at threshold 1. -/
def fileLastExcluded : List Line :=
  [headerLine, twoSweepLine 95 10 10 20, twoSweepLine 94 0 60 60]

/-- Concrete file whose first data line has an unparseable first field,
followed by a well-formed data line. -/
def fileBadNumeric : List Line :=
  [headerLine, [none, some 3, none], twoSweepLine 95 10 10 20]

/-- The executable square comparison used by the embedding agrees with the
source comparison `point_standard_deviation > std_input`, read on the reals. -/
theorem stdExceeds_iff_sqrt (v t : ℚ) :
    stdExceeds v t = true ↔ (t : ℝ) < point_standard_deviation v := by
  unfold stdExceeds point_standard_deviation
  simp only [Bool.or_eq_true, decide_eq_true_eq]
  constructor
  · rintro (h | h)
    · have h0 : (t : ℝ) < 0 := by exact_mod_cast h
      exact lt_of_lt_of_le h0 (Real.sqrt_nonneg _)
    · rcases le_or_lt 0 t with ht | ht
      · have ht2 : (0 : ℝ) ≤ (t : ℝ) := by exact_mod_cast ht
        rw [Real.lt_sqrt ht2]
        have hc : ((t * t : ℚ) : ℝ) < ((v : ℚ) : ℝ) := by exact_mod_cast h
        calc (t : ℝ) ^ 2 = ((t * t : ℚ) : ℝ) := by push_cast; ring
          _ < (v : ℝ) := hc
      · have h0 : (t : ℝ) < 0 := by exact_mod_cast ht
        exact lt_of_lt_of_le h0 (Real.sqrt_nonneg _)
  · intro h
    rcases lt_or_le t 0 with ht | ht
    · exact Or.inl ht
    · right
      have ht2 : (0 : ℝ) ≤ (t : ℝ) := by exact_mod_cast ht
      rw [Real.lt_sqrt ht2] at h
      have hc : ((t * t : ℚ) : ℝ) < (v : ℝ) := by
        calc ((t * t : ℚ) : ℝ) = (t : ℝ) ^ 2 := by push_cast; ring
          _ < (v : ℝ) := h
      exact_mod_cast hc

/-- Negated form of `stdExceeds_iff_sqrt`. -/
theorem stdExceeds_false_iff_sqrt (v t : ℚ) :
    stdExceeds v t = false ↔ point_standard_deviation v ≤ (t : ℝ) := by
  rw [← Bool.not_eq_true, not_iff_comm, stdExceeds_iff_sqrt, not_le]

/-- Python list.remove on a present element deletes its first occurrence. -/
theorem listRemove_of_mem (a : ℚ) (l : List ℚ) (h : a ∈ l) :
    listRemove a l = some (l.erase a) := by
  simp [listRemove, h]

/-- Python list.remove on an absent element raises ValueError. -/
theorem listRemove_of_not_mem (a : ℚ) (l : List ℚ) (h : a ∉ l) :
    listRemove a l = none := by
  simp [listRemove, h]

/-- Filter behaviour on the excluded branch when all four values are present. -/
theorem filter_excluded_eq (t : ℚ) (d : DP) (s : St)
    (hb : stdExceeds d.point_variance t = true)
    (hx : d.binding_energy ∈ s.xaxis) (hfx : d.binding_energy ∈ s.fp_xaxis)
    (hy : d.mean_intensity ∈ s.yaxis) (hfy : d.mean_intensity ∈ s.fp_yaxis) :
    standard_deviation_threshold t (some d) s =
      .ok { s with xaxis := s.xaxis.erase d.binding_energy
                   fp_xaxis := s.fp_xaxis.erase d.binding_energy
                   yaxis := s.yaxis.erase d.mean_intensity
                   fp_yaxis := s.fp_yaxis.erase d.mean_intensity
                   excluded_point_numbers :=
                     s.excluded_point_numbers ++ [d.datapoint_number] } := by
  simp [standard_deviation_threshold, hb, listRemove_of_mem _ _ hx,
    listRemove_of_mem _ _ hfx, listRemove_of_mem _ _ hy, listRemove_of_mem _ _ hfy]

/-- Filter behaviour on the included branch. -/
theorem filter_included_eq (t : ℚ) (d : DP) (s : St)
    (hb : stdExceeds d.point_variance t = false) :
    standard_deviation_threshold t (some d) s =
      .ok { s with included_point_numbers :=
                     s.included_point_numbers ++ [d.datapoint_number] } := by
  simp [standard_deviation_threshold, hb]

/-- A successful filter call never changes the log fields, the stored
variances, the ghost insertions, the line counter or the datapoint snapshot. -/
theorem filter_preserves (t : ℚ) (c : Option DP) (s s2 : St)
    (h : standard_deviation_threshold t c s = .ok s2) :
    s2.std_log = s.std_log ∧
    s2.standard_deviations_list = s.standard_deviations_list ∧
    s2.inserted = s.inserted ∧ s2.line_number = s.line_number ∧
    s2.excluded_log = s.excluded_log ∧ s2.included_log = s.included_log ∧
    s2.last = s.last := by
  rcases c with _ | d
  · simp [standard_deviation_threshold] at h
  · simp only [standard_deviation_threshold] at h
    split at h
    · split at h
      · exact absurd h (by simp)
      · split at h
        · exact absurd h (by simp)
        · split at h
          · exact absurd h (by simp)
          · split at h
            · exact absurd h (by simp)
            · rw [Except.ok.injEq] at h
              subst h
              simp
    · rw [Except.ok.injEq] at h
      subst h
      simp

/-- When all four current values are present in their series, the filter
call succeeds whichever branch is taken. -/
theorem filter_ok_of_mem (t : ℚ) (d : DP) (s : St)
    (hx : d.binding_energy ∈ s.xaxis) (hfx : d.binding_energy ∈ s.fp_xaxis)
    (hy : d.mean_intensity ∈ s.yaxis) (hfy : d.mean_intensity ∈ s.fp_yaxis) :
    ∃ s2, standard_deviation_threshold t (some d) s = .ok s2 := by
  cases hb : stdExceeds d.point_variance t
  · exact ⟨_, filter_included_eq t d s hb⟩
  · exact ⟨_, filter_excluded_eq t d s hb hx hfx hy hfy⟩

/-- C2: a processed datapoint with standard deviation strictly above the user
threshold is Excluded — its binding energy is removed from the per-file and
combined x-series, its mean intensity from both y-series, and its number is
appended to the excluded list; with standard deviation at most the threshold
(equality included) it is Included — all four series are left untouched and
its number is appended to the included list.  The membership hypotheses hold
at every per-datapoint invocation, because the loop body appends the
datapoint's values to all four series just before calling the filter. -/
theorem C2_threshold_filter (std_input : ℚ) (d : DP) (s : St)
    (hx : d.binding_energy ∈ s.xaxis) (hfx : d.binding_energy ∈ s.fp_xaxis)
    (hy : d.mean_intensity ∈ s.yaxis) (hfy : d.mean_intensity ∈ s.fp_yaxis) :
    ((std_input : ℝ) < point_standard_deviation d.point_variance →
      standard_deviation_threshold std_input (some d) s =
        .ok { s with xaxis := s.xaxis.erase d.binding_energy
                     fp_xaxis := s.fp_xaxis.erase d.binding_energy
                     yaxis := s.yaxis.erase d.mean_intensity
                     fp_yaxis := s.fp_yaxis.erase d.mean_intensity
                     excluded_point_numbers :=
                       s.excluded_point_numbers ++ [d.datapoint_number] }) ∧
    (point_standard_deviation d.point_variance ≤ (std_input : ℝ) →
      standard_deviation_threshold std_input (some d) s =
        .ok { s with included_point_numbers :=
                       s.included_point_numbers ++ [d.datapoint_number] }) := by
  constructor
  · intro h
    exact filter_excluded_eq std_input d s
      ((stdExceeds_iff_sqrt d.point_variance std_input).2 h) hx hfx hy hfy
  · intro h
    exact filter_included_eq std_input d s
      ((stdExceeds_false_iff_sqrt d.point_variance std_input).2 h)

/-- Witness for C2 at concrete datapoints: variance 25 (standard deviation 5)
against threshold 1 is excluded with both series entries removed; variance 0
against threshold 1 is included with the series untouched. -/
theorem C2_threshold_filter_witness :
    standard_deviation_threshold 1 (some ⟨25, 5, 10, 3⟩)
        { initSt with xaxis := [5], fp_xaxis := [5], yaxis := [10], fp_yaxis := [10] } =
      .ok { initSt with excluded_point_numbers := [3] } ∧
    standard_deviation_threshold 1 (some ⟨0, 5, 10, 4⟩)
        { initSt with xaxis := [5], fp_xaxis := [5], yaxis := [10], fp_yaxis := [10] } =
      .ok { initSt with xaxis := [5], fp_xaxis := [5], yaxis := [10], fp_yaxis := [10]
                        included_point_numbers := [4] } := by
  have h5 : point_standard_deviation 25 = 5 := by
    unfold point_standard_deviation
    rw [show ((25 : ℚ) : ℝ) = (5 : ℝ) ^ 2 by norm_num, Real.sqrt_sq (by norm_num)]
  have h0 : point_standard_deviation 0 = 0 := by
    unfold point_standard_deviation
    rw [show ((0 : ℚ) : ℝ) = (0 : ℝ) by norm_num, Real.sqrt_zero]
  constructor
  · have h := (C2_threshold_filter 1 ⟨25, 5, 10, 3⟩
      { initSt with xaxis := [5], fp_xaxis := [5], yaxis := [10], fp_yaxis := [10] }
      (by decide) (by decide) (by decide) (by decide)).1 (by rw [h5]; norm_num)
    simpa using h
  · have h := (C2_threshold_filter 1 ⟨0, 5, 10, 4⟩
      { initSt with xaxis := [5], fp_xaxis := [5], yaxis := [10], fp_yaxis := [10] }
      (by decide) (by decide) (by decide) (by decide)).2 (by rw [h0]; norm_num)
    simpa using h

/-- C5 (counterexample): one file whose first data line has an unparseable
first numeric field.  The run dies with the uncaught ValueError: the line is
not skipped, and the following well-formed line is never processed (no std
entry, no y value). -/
theorem C5_counterexample :
    (fullRun 100 1 20 "b" [("scan1.dat", fileBadNumeric)]).isFatalError = true ∧
    (fullRun 100 1 20 "b" [("scan1.dat", fileBadNumeric)]).finalState.std_log = [] ∧
    (fullRun 100 1 20 "b" [("scan1.dat", fileBadNumeric)]).finalState.yaxis = [] := by
  decide

/-- C5 (amended): a data line whose first field float() cannot parse raises
an uncaught ValueError that aborts the loop immediately: the state is
unchanged apart from the line counter, and none of the remaining lines of
the file are processed. -/
theorem C5_amended_malformed_line_fatal (p t : ℚ) (f : String) (tl : List Tok)
    (rest : List Line) (fuel : ℕ) (s : St) :
    loopRun p t f (fuel + 1) ((none :: tl) :: rest) s =
      .fatal { s with line_number := s.line_number + 1 } := by
  rfl

/-- C6 (counterexample): with zero matching scan files the run does not
complete normally — the post-loop filter call reads datapoint variables that
were never assigned, and the caught NameError turns into the wrong-folder
diagnostic followed by exit(); no report content was ever written. -/
theorem C6_counterexample :
    (fullRun 100 1 20 "b" []).isCompleted = false ∧
    fullRun 100 1 20 "b" [] = .wrongFolderExit initSt ∧
    initSt.std_log = [] ∧ initSt.excluded_log = [] ∧ initSt.included_log = [] := by
  decide

/-- C6 (amended): for every configuration, a run over an empty file list
terminates through the caught-NameError path of the post-loop filter call,
with the wrong-folder message and exit(), leaving the initial state: the
report files (deleted at startup) are never recreated, and the combined
plot and the max-std-dev summary are never reached. -/
theorem C6_amended_zero_files_exit (p t : ℚ) (fuel : ℕ) (choice : String) :
    fullRun p t fuel choice [] = .wrongFolderExit initSt := by
  rfl

/-- C8: the output-mode letters are accepted case-insensitively, but the
combined-plot cleanup tests `output_file == "I"` (a list compared with a
string, always False) instead of `output_plot_choice == "I"`: for the valid
Individual-mode input I the combined plot artifact is still on disk after
the run, while for i it is removed. -/
theorem C8_uppercase_individual_leaves_plot :
    validChoice "I" = true ∧
    (fullRun 100 1 20 "I" [("scan1.dat", fileGood)]).finalPlotOnDisk = some true ∧
    (fullRun 100 1 20 "i" [("scan1.dat", fileGood)]).finalPlotOnDisk = some false ∧
    removeFinalPlot "I" = false := by
  with_unfolding_all decide

/-- C9 (counterexample): the program does invoke the filter at the boundary
after the file loop (source line 340) with the stale last datapoint.  When
the last datapoint of the run was excluded, that invocation attempts a
second removal of values that are no longer present and dies with an
uncaught ValueError — the file loop itself had completed normally.  And
even in the harmless case (last datapoint included) the boundary invocation
appends the stale datapoint number to the included list a second time
instead of leaving the records unchanged. -/
theorem C9_counterexample :
    (runFiles 100 1 20 [("scan1.dat", fileLastExcluded)] initSt).isOk = true ∧
    (fullRun 100 1 20 "b" [("scan1.dat", fileLastExcluded)]).isFatalError = true ∧
    (fullRun 100 1 20 "b" [("scan1.dat", fileGood)]).finalState.included_point_numbers
      = [1, 1] := by
  with_unfolding_all decide

/-- C9 (amended): the post-loop filter invocation is never a no-op.  With no
datapoint ever in scope it exits through the caught-NameError wrong-folder
path; with a stale datapoint at or below the threshold it appends that
datapoint number to the included list again; with a stale datapoint above
the threshold whose binding energy is no longer in the per-file x-series it
raises an uncaught ValueError. -/
theorem C9_amended_boundary_not_noop (t : ℚ) (s : St) (d : DP) :
    standard_deviation_threshold t none s = .error .wrongFolderExit ∧
    (stdExceeds d.point_variance t = false →
      standard_deviation_threshold t (some d) s =
        .ok { s with included_point_numbers :=
                       s.included_point_numbers ++ [d.datapoint_number] }) ∧
    (stdExceeds d.point_variance t = true → d.binding_energy ∉ s.xaxis →
      standard_deviation_threshold t (some d) s = .error .valueError) := by
  refine ⟨rfl, fun hb => filter_included_eq t d s hb, fun hb hx => ?_⟩
  simp [standard_deviation_threshold, hb, listRemove_of_not_mem _ _ hx]

/-- Witness for C9 (amended) at threshold 1: an included stale datapoint is
re-appended, and an excluded stale datapoint whose values were already
removed raises ValueError. -/
theorem C9_amended_boundary_not_noop_witness :
    standard_deviation_threshold 1 (some ⟨0, 5, 10, 7⟩) initSt =
      .ok { initSt with included_point_numbers := [7] } ∧
    standard_deviation_threshold 1 (some ⟨25, 5, 10, 7⟩) initSt =
      .error .valueError := by
  constructor
  · have h := (C9_amended_boundary_not_noop 1 initSt ⟨0, 5, 10, 7⟩).2.1
      (by with_unfolding_all decide)
    simpa using h
  · exact (C9_amended_boundary_not_noop 1 initSt ⟨25, 5, 10, 7⟩).2.2
      (by with_unfolding_all decide) (by decide)

/-- C4 (counterexample): with the duplicated binding energy of `fileDup`,
excluding datapoint 3 removes the first occurrence of its binding energy
(the one inserted for datapoint 1) while removing its own mean intensity,
so the final combined series is not the concatenation of the surviving
(binding_energy, mean_intensity) pairs: the run ends with pairs
(6, 10), (5, 20), (7, 40) where the survivors are (5, 10), (6, 20), (7, 40). -/
theorem C4_counterexample :
    (fullRun 100 1 20 "b" [("scan1.dat", fileDup)]).isCompleted = true ∧
    ((fullRun 100 1 20 "b" [("scan1.dat", fileDup)]).finalState.fp_xaxis.zip
      (fullRun 100 1 20 "b" [("scan1.dat", fileDup)]).finalState.fp_yaxis)
      = [(6, 10), (5, 20), (7, 40)] ∧
    survivingPairs (fullRun 100 1 20 "b" [("scan1.dat", fileDup)]).finalState
      = [(5, 10), (6, 20), (7, 40)] ∧
    ([(6, 10), (5, 20), (7, 40)] : List (ℚ × ℚ)) ≠ [(5, 10), (6, 20), (7, 40)] := by
  with_unfolding_all decide

/-- C4 (amended): exclusion removes, from each of the four series, the first
entry equal in value to the datapoint's coordinate.  When the datapoint's
binding energy does not occur earlier in the x-series and its mean intensity
does not occur earlier in the y-series, the removed entries are exactly the
ones inserted for that datapoint, restoring the series to their state before
the insertion. -/
theorem C4_amended_removal_by_value (t : ℚ) (d : DP) (s : St)
    (xa fxa ya fya : List ℚ)
    (hx : d.binding_energy ∉ xa) (hfx : d.binding_energy ∉ fxa)
    (hy : d.mean_intensity ∉ ya) (hfy : d.mean_intensity ∉ fya)
    (hb : stdExceeds d.point_variance t = true) :
    standard_deviation_threshold t (some d)
        { s with xaxis := xa ++ [d.binding_energy]
                 fp_xaxis := fxa ++ [d.binding_energy]
                 yaxis := ya ++ [d.mean_intensity]
                 fp_yaxis := fya ++ [d.mean_intensity] } =
      .ok { s with xaxis := xa, fp_xaxis := fxa, yaxis := ya, fp_yaxis := fya
                   excluded_point_numbers :=
                     s.excluded_point_numbers ++ [d.datapoint_number] } := by
  have h := filter_excluded_eq t d
    { s with xaxis := xa ++ [d.binding_energy]
             fp_xaxis := fxa ++ [d.binding_energy]
             yaxis := ya ++ [d.mean_intensity]
             fp_yaxis := fya ++ [d.mean_intensity] }
    hb (by simp) (by simp) (by simp) (by simp)
  rw [h]
  simp [List.erase_append_right _ hx, List.erase_append_right _ hfx,
    List.erase_append_right _ hy, List.erase_append_right _ hfy]

/-- Witness for C4 (amended): excluding a datapoint with fresh values 5 and
10 from series that previously held only 7 and 8 removes exactly the
inserted entries. -/
theorem C4_amended_removal_by_value_witness :
    standard_deviation_threshold 1 (some ⟨25, 5, 10, 2⟩)
        { initSt with xaxis := [7, 5], fp_xaxis := [7, 5]
                      yaxis := [8, 10], fp_yaxis := [8, 10] } =
      .ok { initSt with xaxis := [7], fp_xaxis := [7], yaxis := [8], fp_yaxis := [8]
                        excluded_point_numbers := [2] } := by
  have h := C4_amended_removal_by_value 1 ⟨25, 5, 10, 2⟩ initSt [7] [7] [8] [8]
    (by decide) (by decide) (by decide) (by decide) (by with_unfolding_all decide)
  simpa using h

/-- Trace of one loop-body tail: it never takes the `continue` path, appends
at most one entry to the std log (and, in lockstep, its variance to the
stored list), appends exactly one entry when it completes normally, and
leaves the per-file report logs and the line counter alone. -/
theorem lineTail_trace (t : ℚ) (f : String) (dp : Line) (be mi : ℚ)
    (dn ln : ℕ) (s : St) :
    ∃ new,
      (lineTail t f dp be mi dn ln s).state.std_log = s.std_log ++ new ∧
      (lineTail t f dp be mi dn ln s).state.standard_deviations_list
        = s.standard_deviations_list ++ new.map StdEntry.variance ∧
      (lineTail t f dp be mi dn ln s).state.excluded_log = s.excluded_log ∧
      (lineTail t f dp be mi dn ln s).state.included_log = s.included_log ∧
      (lineTail t f dp be mi dn ln s).state.line_number = s.line_number ∧
      (∀ e ∈ new, e.filename = f ∧ e.datapoint_number = dn ∧ e.line_number = ln) ∧
      new.length ≤ 1 ∧
      (lineTail t f dp be mi dn ln s).isContSame = false ∧
      (∀ s2, lineTail t f dp be mi dn ln s = .next s2 → new.length = 1) := by
  unfold lineTail
  cases hseq : sequenceFields (intensitiesOf dp) with
  | none =>
    refine ⟨[], ?_, ?_, ?_, ?_, ?_, ?_, ?_, ?_, ?_⟩ <;>
      simp [hseq, LineOutcome.state, LineOutcome.isContSame]
  | some xs =>
    by_cases hlen : xs.length = 0
    · refine ⟨[], ?_, ?_, ?_, ?_, ?_, ?_, ?_, ?_, ?_⟩ <;>
        simp [hseq, hlen, LineOutcome.state, LineOutcome.isContSame]
    · simp only [hseq, hlen, if_false]
      split
      · next s5 hfil =>
        obtain ⟨h1, h2, h3, h4, h5, h6, h7⟩ := filter_preserves _ _ _ _ hfil
        refine ⟨[⟨f, dn, ln, (xs.map (fun x => (x - mi) * (x - mi))).sum / (xs.length : ℚ)⟩],
          ?_, ?_, ?_, ?_, ?_, ?_, ?_, ?_, ?_⟩ <;>
          simp_all [LineOutcome.state, LineOutcome.isContSame]
      · refine ⟨[⟨f, dn, ln, (xs.map (fun x => (x - mi) * (x - mi))).sum / (xs.length : ℚ)⟩],
          ?_, ?_, ?_, ?_, ?_, ?_, ?_, ?_, ?_⟩ <;>
          simp [LineOutcome.state, LineOutcome.isContSame]

/-- Trace of one loop-body execution: the line counter always advances by
one; at most one std entry is appended (in lockstep with the stored variance
list and carrying this file name, the current datapoint number and its line
number, which differ by one); exactly one entry is appended on normal
completion and none on the `continue` path; the per-file report logs are
untouched. -/
theorem lineStep_trace (p t : ℚ) (f : String) (l : Line) (s : St) :
    ∃ new,
      (lineStep p t f l s).state.std_log = s.std_log ++ new ∧
      (lineStep p t f l s).state.standard_deviations_list
        = s.standard_deviations_list ++ new.map StdEntry.variance ∧
      (lineStep p t f l s).state.excluded_log = s.excluded_log ∧
      (lineStep p t f l s).state.included_log = s.included_log ∧
      (lineStep p t f l s).state.line_number = s.line_number + 1 ∧
      new.map StdEntry.datapoint_number = List.range' s.line_number new.length ∧
      (∀ e ∈ new, e.filename = f ∧ e.line_number = e.datapoint_number + 1) ∧
      ((lineStep p t f l s).isContSame = true → new = []) ∧
      (∀ s2, lineStep p t f l s = .next s2 → new.length = 1) := by
  unfold lineStep
  cases hh : l.head? with
  | none =>
    refine ⟨[], ?_, ?_, ?_, ?_, ?_, ?_, ?_, ?_, ?_⟩ <;>
      simp [LineOutcome.state, LineOutcome.isContSame]
  | some f0 =>
    cases f0 with
    | none =>
      refine ⟨[], ?_, ?_, ?_, ?_, ?_, ?_, ?_, ?_, ?_⟩ <;>
        simp [LineOutcome.state, LineOutcome.isContSame]
    | some ke =>
      simp only []
      split
      · cases hg : l.getD (l.length - 2) none with
        | none =>
          refine ⟨[], ?_, ?_, ?_, ?_, ?_, ?_, ?_, ?_, ?_⟩ <;>
            simp [hg, LineOutcome.state, LineOutcome.isContSame]
        | some sumv =>
          simp only [hg]
          obtain ⟨new, h1, h2, h3, h4, h5, h6, h7, h8, h9⟩ :=
            lineTail_trace t f l (p - ke) (sumv / (((l.length : ℤ) - 2 - 1 : ℤ) : ℚ))
              (s.line_number + 1 - 1) (s.line_number + 1)
              { s with line_number := s.line_number + 1
                       xaxis := s.xaxis ++ [p - ke], fp_xaxis := s.fp_xaxis ++ [p - ke] }
          refine ⟨new, ?_, ?_, ?_, ?_, ?_, ?_, ?_, ?_, ?_⟩
          · rw [h1]
          · rw [h2]
          · rw [h3]
          · rw [h4]
          · rw [h5]
          · rcases new with _ | ⟨e, rest⟩
            · simp
            · rcases rest with _ | ⟨e2, rest2⟩
              · obtain ⟨-, he2, -⟩ := h6 e (by simp)
                simp [he2, List.range'_one]
              · simp at h7
          · intro e he
            obtain ⟨hf, hd, hl⟩ := h6 e he
            exact ⟨hf, by omega⟩
          · intro hcs
            rw [hcs] at h8
            simp at h8
          · exact h9
      · split
        · cases hg : l.getD (l.length - 2) none with
          | none =>
            refine ⟨[], ?_, ?_, ?_, ?_, ?_, ?_, ?_, ?_, ?_⟩ <;>
              simp [hg, LineOutcome.state, LineOutcome.isContSame]
          | some sumv =>
            simp only [hg]
            obtain ⟨new, h1, h2, h3, h4, h5, h6, h7, h8, h9⟩ :=
              lineTail_trace t f l (p - ke) (sumv / 1)
                (s.line_number + 1 - 1) (s.line_number + 1)
                { s with line_number := s.line_number + 1
                         xaxis := s.xaxis ++ [p - ke], fp_xaxis := s.fp_xaxis ++ [p - ke] }
            refine ⟨new, ?_, ?_, ?_, ?_, ?_, ?_, ?_, ?_, ?_⟩
            · rw [h1]
            · rw [h2]
            · rw [h3]
            · rw [h4]
            · rw [h5]
            · rcases new with _ | ⟨e, rest⟩
              · simp
              · rcases rest with _ | ⟨e2, rest2⟩
                · obtain ⟨-, he2, -⟩ := h6 e (by simp)
                  simp [he2, List.range'_one]
                · simp at h7
            · intro e he
              obtain ⟨hf, hd, hl⟩ := h6 e he
              exact ⟨hf, by omega⟩
            · intro hcs
              rw [hcs] at h8
              simp at h8
            · exact h9
        · refine ⟨[], ?_, ?_, ?_, ?_, ?_, ?_, ?_, ?_, ?_⟩ <;>
            simp [LineOutcome.state, LineOutcome.isContSame]

/-- The `continue` path is taken only for a line whose first token parses
and which splits into fewer than three fields. -/
theorem lineStep_contSame_shape (p t : ℚ) (f : String) (l : Line) (s s2 : St)
    (h : lineStep p t f l s = .contSame s2) :
    (∃ k, l.head? = some (some k)) ∧ l.length < 3 := by
  unfold lineStep at h
  cases hh : l.head? with
  | none => rw [hh] at h; simp at h
  | some f0 =>
    cases f0 with
    | none => rw [hh] at h; simp at h
    | some k =>
      rw [hh] at h
      simp only [] at h
      by_cases h1 : (0 : ℤ) < (l.length : ℤ) - 2 - 1
      · rw [if_pos h1] at h
        cases hg : l.getD (l.length - 2) none with
        | none => rw [hg] at h; simp at h
        | some sumv =>
          simp only [hg] at h
          obtain ⟨new, -, -, -, -, -, -, -, h8, -⟩ :=
            lineTail_trace t f l (p - k) (sumv / (((l.length : ℤ) - 2 - 1 : ℤ) : ℚ))
              (s.line_number + 1 - 1) (s.line_number + 1)
              { s with line_number := s.line_number + 1
                       xaxis := s.xaxis ++ [p - k], fp_xaxis := s.fp_xaxis ++ [p - k] }
          rw [h] at h8
          simp [LineOutcome.isContSame] at h8
      · rw [if_neg h1] at h
        by_cases h2 : ((l.length : ℤ) - 2 - 1 = 0)
        · rw [if_pos h2] at h
          cases hg : l.getD (l.length - 2) none with
          | none => rw [hg] at h; simp at h
          | some sumv =>
            simp only [hg] at h
            obtain ⟨new, -, -, -, -, -, -, -, h8, -⟩ :=
              lineTail_trace t f l (p - k) (sumv / 1)
                (s.line_number + 1 - 1) (s.line_number + 1)
                { s with line_number := s.line_number + 1
                         xaxis := s.xaxis ++ [p - k], fp_xaxis := s.fp_xaxis ++ [p - k] }
            rw [h] at h8
            simp [LineOutcome.isContSame] at h8
        · exact ⟨⟨k, rfl⟩, by omega⟩

/-- Converse: a short line with a parseable first token always takes the
`continue` path, appending only the binding energy to the two x-series. -/
theorem lineStep_contSame_of_shape (p t : ℚ) (f : String) (l : Line) (k : ℚ)
    (hh : l.head? = some (some k)) (hl : l.length < 3) (s : St) :
    lineStep p t f l s =
      .contSame { s with line_number := s.line_number + 1
                         xaxis := s.xaxis ++ [p - k]
                         fp_xaxis := s.fp_xaxis ++ [p - k] } := by
  unfold lineStep
  rw [hh]
  simp only []
  rw [if_neg (by omega : ¬ (0 : ℤ) < (l.length : ℤ) - 2 - 1),
    if_neg (by omega : ¬ ((l.length : ℤ) - 2 - 1 = 0))]

/-- Once the loop sits on a `continue` line it re-processes it forever:
no std entry, stored variance or report-log line is ever added again. -/
theorem loopRun_contSame_stuck (p t : ℚ) (f : String) (l : Line) (k : ℚ)
    (hh : l.head? = some (some k)) (hl : l.length < 3) :
    ∀ (fuel : ℕ) (rest : List Line) (s : St),
      (loopRun p t f fuel (l :: rest) s).state.std_log = s.std_log ∧
      (loopRun p t f fuel (l :: rest) s).state.standard_deviations_list
        = s.standard_deviations_list ∧
      (loopRun p t f fuel (l :: rest) s).state.excluded_log = s.excluded_log ∧
      (loopRun p t f fuel (l :: rest) s).state.included_log = s.included_log := by
  intro fuel
  induction fuel with
  | zero => intro rest s; simp [loopRun, RunOutcome.state]
  | succ n ih =>
    intro rest s
    obtain ⟨i1, i2, i3, i4⟩ := ih rest
      { s with line_number := s.line_number + 1
               xaxis := s.xaxis ++ [p - k], fp_xaxis := s.fp_xaxis ++ [p - k] }
    simp only [loopRun, lineStep_contSame_of_shape p t f l k hh hl s]
    exact ⟨by rw [i1], by rw [i2], by rw [i3], by rw [i4]⟩

/-- Trace of the whole per-file while loop, from any starting state: the std
entries appended carry this file name, line numbers one above their datapoint
numbers, and datapoint numbers that are consecutive starting from the
starting line counter; the stored variance list grows in lockstep, and the
report logs are untouched. -/
theorem loopRun_trace (p t : ℚ) (f : String) :
    ∀ (fuel : ℕ) (lines : List Line) (s : St),
      ∃ new,
        (loopRun p t f fuel lines s).state.std_log = s.std_log ++ new ∧
        (loopRun p t f fuel lines s).state.standard_deviations_list
          = s.standard_deviations_list ++ new.map StdEntry.variance ∧
        (loopRun p t f fuel lines s).state.excluded_log = s.excluded_log ∧
        (loopRun p t f fuel lines s).state.included_log = s.included_log ∧
        new.map StdEntry.datapoint_number = List.range' s.line_number new.length ∧
        (∀ e ∈ new, e.filename = f ∧ e.line_number = e.datapoint_number + 1) := by
  intro fuel
  induction fuel with
  | zero =>
    intro lines s
    cases lines with
    | nil =>
      refine ⟨[], ?_, ?_, ?_, ?_, ?_, ?_⟩ <;> simp [loopRun, RunOutcome.state]
    | cons l rest =>
      refine ⟨[], ?_, ?_, ?_, ?_, ?_, ?_⟩ <;> simp [loopRun, RunOutcome.state]
  | succ n ih =>
    intro lines s
    cases lines with
    | nil =>
      refine ⟨[], ?_, ?_, ?_, ?_, ?_, ?_⟩ <;> simp [loopRun, RunOutcome.state]
    | cons l rest =>
      obtain ⟨new1, g1, g2, g3, g4, g5, g6, g7, g8, g9⟩ := lineStep_trace p t f l s
      cases hstep : lineStep p t f l s with
      | next s2 =>
        rw [hstep] at g1 g2 g3 g4 g5
        simp only [LineOutcome.state] at g1 g2 g3 g4 g5
        obtain ⟨new2, k1, k2, k3, k4, k5, k6⟩ := ih rest s2
        have hlen1 : new1.length = 1 := g9 s2 hstep
        refine ⟨new1 ++ new2, ?_, ?_, ?_, ?_, ?_, ?_⟩
        · simp only [loopRun, hstep]
          rw [k1, g1, List.append_assoc]
        · simp only [loopRun, hstep]
          rw [k2, g2, List.map_append, List.append_assoc]
        · simp only [loopRun, hstep]
          rw [k3, g3]
        · simp only [loopRun, hstep]
          rw [k4, g4]
        · rcases new1 with _ | ⟨e, rest1⟩
          · simp at hlen1
          · rcases rest1 with _ | ⟨e2, rest2⟩
            · have he : e.datapoint_number = s.line_number := by
                simpa [List.range'_one] using g6
              rw [g5] at k5
              simp only [List.singleton_append, List.map_cons, List.length_cons]
              rw [List.range'_succ, he, k5]
            · simp at hlen1
        · intro e he
          rcases List.mem_append.1 he with h | h
          · exact g7 e h
          · exact k6 e h
      | contSame s2 =>
        obtain ⟨⟨k, hh⟩, hl⟩ := lineStep_contSame_shape p t f l s s2 hstep
        rw [hstep] at g1 g2 g8
        simp only [LineOutcome.state] at g1 g2
        have hnew1 : new1 = [] := g8 (by simp [LineOutcome.isContSame])
        rw [hnew1] at g1 g2
        simp only [List.append_nil, List.map_nil] at g1 g2
        obtain ⟨i1, i2, i3, i4⟩ := loopRun_contSame_stuck p t f l k hh hl n rest s2
        refine ⟨[], ?_, ?_, ?_, ?_, ?_, ?_⟩
        · simp only [loopRun, hstep]
          rw [i1, g1]
          simp
        · simp only [loopRun, hstep]
          rw [i2, g2]
          simp
        · simp only [loopRun, hstep]
          rw [i3]
          rw [hstep] at g3
          simpa [LineOutcome.state] using g3
        · simp only [loopRun, hstep]
          rw [i4]
          rw [hstep] at g4
          simpa [LineOutcome.state] using g4
        · simp
        · simp
      | fatal s2 =>
        refine ⟨new1, ?_, ?_, ?_, ?_, ?_, ?_⟩
        · simp only [loopRun, hstep]
          rw [hstep] at g1
          simpa [LineOutcome.state, RunOutcome.state] using g1
        · simp only [loopRun, hstep]
          rw [hstep] at g2
          simpa [LineOutcome.state, RunOutcome.state] using g2
        · simp only [loopRun, hstep]
          rw [hstep] at g3
          simpa [LineOutcome.state, RunOutcome.state] using g3
        · simp only [loopRun, hstep]
          rw [hstep] at g4
          simpa [LineOutcome.state, RunOutcome.state] using g4
        · exact g6
        · exact g7

/-- A `continue` line never lets the loop terminate: whatever the fuel, the
loop is still re-processing the same line when the fuel runs out, modelling
the source's endless loop (`continue` skips the `readline()`). -/
theorem loopRun_contSame_spin (p t : ℚ) (f : String) (l : Line) (k : ℚ)
    (hh : l.head? = some (some k)) (hl : l.length < 3) :
    ∀ (fuel : ℕ) (rest : List Line) (s : St),
      ∃ s2, loopRun p t f fuel (l :: rest) s = .spin s2 := by
  intro fuel
  induction fuel with
  | zero => intro rest s; exact ⟨s, rfl⟩
  | succ n ih =>
    intro rest s
    simp only [loopRun, lineStep_contSame_of_shape p t f l k hh hl s]
    exact ih rest _

/-- C3 (failing input): on a data line that splits into only two fields with
a parseable first field, the loop body appends the binding energy to the
x-series, then hits the negative-sweep-count branch and gives up on the line,
leaving the x-series one entry longer than the y-series — the equal-length
invariant is broken after this processed-and-skipped datapoint; moreover the
`continue` skips the readline, so the loop re-processes the same line until
the fuel runs out, i.e. the program never terminates on such a file. -/
theorem C3_length_invariant_broken :
    (lineStep 100 1 "scan1.dat" [some 95, none] initSt).isContSame = true ∧
    (lineStep 100 1 "scan1.dat" [some 95, none] initSt).state.xaxis.length = 1 ∧
    (lineStep 100 1 "scan1.dat" [some 95, none] initSt).state.yaxis.length = 0 ∧
    (lineStep 100 1 "scan1.dat" [some 95, none] initSt).state.fp_xaxis.length = 1 ∧
    (lineStep 100 1 "scan1.dat" [some 95, none] initSt).state.fp_yaxis.length = 0 ∧
    ∀ (fuel : ℕ) (rest : List Line) (s : St),
      ∃ s2, loopRun 100 1 "scan1.dat" fuel ([some 95, none] :: rest) s = .spin s2 := by
  refine ⟨by decide, by decide, by decide, by decide, by decide, ?_⟩
  exact loopRun_contSame_spin 100 1 "scan1.dat" [some 95, none] 95 rfl (by decide)

/-- Trace of the processing of one file: the std entries it appends carry
its file name, line numbers one above the datapoint numbers, and datapoint
numbers consecutive from 1; when it completes normally the (re-initialised)
stored variance list holds exactly the variances of those new entries. -/
theorem processFile_trace (p t : ℚ) (fuel : ℕ) (f : String) (ls : List Line)
    (s : St) :
    ∃ new,
      (processFile p t fuel f ls s).state.std_log = s.std_log ++ new ∧
      (∀ e ∈ new, e.filename = f ∧ e.line_number = e.datapoint_number + 1) ∧
      new.map StdEntry.datapoint_number = List.range' 1 new.length ∧
      ∀ s1, processFile p t fuel f ls s = .ok s1 →
        s1.standard_deviations_list = new.map StdEntry.variance := by
  obtain ⟨new, h1, h2, h3, h4, h5, h6⟩ := loopRun_trace p t f fuel (ls.drop 1)
    { s with xaxis := [], yaxis := [], standard_deviations_list := []
             excluded_point_numbers := [], included_point_numbers := []
             line_number := 1 }
  refine ⟨new, ?_, h6, by simpa using h5, ?_⟩
  · unfold processFile
    dsimp only
    split
    · next s1b hres =>
      rw [hres] at h1
      simp only [RunOutcome.state] at h1 ⊢
      simpa using h1
    · next s1b hres =>
      rw [hres] at h1
      simp only [RunOutcome.state] at h1 ⊢
      simpa using h1
    · next s1b hres =>
      rw [hres] at h1
      simp only [RunOutcome.state] at h1 ⊢
      simpa using h1
  · intro s1 hok
    unfold processFile at hok
    dsimp only at hok
    split at hok
    · next s1b hres =>
      rw [hres] at h2
      simp only [RunOutcome.state] at h2
      simp only [RunOutcome.ok.injEq] at hok
      subst hok
      simpa using h2
    · next s1b hres =>
      simp at hok
    · next s1b hres =>
      simp at hok

/-- The line-equals-datapoint-plus-one property of std-log entries is
preserved across the whole file loop. -/
theorem runFiles_line_offset (p t : ℚ) (fuel : ℕ) :
    ∀ (files : List (String × List Line)) (s : St),
      (∀ e ∈ s.std_log, e.line_number = e.datapoint_number + 1) →
      ∀ e ∈ (runFiles p t fuel files s).state.std_log,
        e.line_number = e.datapoint_number + 1 := by
  intro files
  induction files with
  | nil =>
    intro s hs
    simpa [runFiles, RunOutcome.state] using hs
  | cons x rest ih =>
    rcases x with ⟨f, ls⟩
    intro s hs
    obtain ⟨new, h1, h2, h3, h4⟩ := processFile_trace p t fuel f ls s
    cases hp : processFile p t fuel f ls s with
    | ok s1 =>
      simp only [runFiles, hp]
      apply ih
      rw [hp] at h1
      simp only [RunOutcome.state] at h1
      rw [h1]
      intro e he
      rcases List.mem_append.1 he with h | h
      · exact hs e h
      · exact (h2 e h).2
    | fatal s1 =>
      simp only [runFiles, hp]
      rw [hp] at h1
      simp only [RunOutcome.state] at h1 ⊢
      rw [h1]
      intro e he
      rcases List.mem_append.1 he with h | h
      · exact hs e h
      · exact (h2 e h).2
    | spin s1 =>
      simp only [runFiles, hp]
      rw [hp] at h1
      simp only [RunOutcome.state] at h1 ⊢
      rw [h1]
      intro e he
      rcases List.mem_append.1 he with h | h
      · exact hs e h
      · exact (h2 e h).2

/-- Every std-log entry present at the end of any whole run pairs a line
number with its datapoint number plus one. -/
theorem fullRun_line_offset (p t : ℚ) (fuel : ℕ) (choice : String)
    (files : List (String × List Line)) :
    ∀ e ∈ (fullRun p t fuel choice files).finalState.std_log,
      e.line_number = e.datapoint_number + 1 := by
  have base := runFiles_line_offset p t fuel files initSt (by simp [initSt])
  unfold fullRun
  cases hr : runFiles p t fuel files initSt with
  | fatal s =>
    rw [hr] at base
    simpa [RunResult.finalState, RunOutcome.state] using base
  | spin s =>
    rw [hr] at base
    simpa [RunResult.finalState, RunOutcome.state] using base
  | ok s =>
    rw [hr] at base
    simp only [RunOutcome.state] at base
    dsimp only
    cases hf : standard_deviation_threshold t s.last s with
    | error e2 =>
      cases e2 <;> simpa [RunResult.finalState] using base
    | ok s2 =>
      obtain ⟨f1, -, -, -, -, -, -⟩ := filter_preserves _ _ _ _ hf
      dsimp only
      cases hm : maxQ s2.standard_deviations_list with
      | none =>
        simp only [RunResult.finalState]
        rw [f1]
        exact base
      | some m =>
        simp only [RunResult.finalState]
        rw [f1]
        exact base

/-- C10: every entry written to the std-dev log records a file line number
equal to its datapoint number plus one (the single header line accounts for
the offset) — both per file and across any whole run — and within each file
the datapoint numbers written are the consecutive integers 1, 2, ... in line
order. -/
theorem C10_std_log_numbering :
    (∀ (p t : ℚ) (fuel : ℕ) (f : String) (ls : List Line) (s : St),
      ∃ new,
        (processFile p t fuel f ls s).state.std_log = s.std_log ++ new ∧
        (∀ e ∈ new, e.line_number = e.datapoint_number + 1) ∧
        new.map StdEntry.datapoint_number = List.range' 1 new.length) ∧
    (∀ (p t : ℚ) (fuel : ℕ) (choice : String)
        (files : List (String × List Line)),
      ∀ e ∈ (fullRun p t fuel choice files).finalState.std_log,
        e.line_number = e.datapoint_number + 1) := by
  constructor
  · intro p t fuel f ls s
    obtain ⟨new, h1, h2, h3, h4⟩ := processFile_trace p t fuel f ls s
    exact ⟨new, h1, fun e he => (h2 e he).2, h3⟩
  · exact fullRun_line_offset

/-- The outer file loop splits over list concatenation. -/
theorem runFiles_append (p t : ℚ) (fuel : ℕ) (a b : List (String × List Line))
    (s : St) :
    runFiles p t fuel (a ++ b) s =
      match runFiles p t fuel a s with
      | .ok s2 => runFiles p t fuel b s2
      | .fatal s2 => .fatal s2
      | .spin s2 => .spin s2 := by
  induction a generalizing s with
  | nil => simp [runFiles]
  | cons x rest ih =>
    rcases x with ⟨f, ls⟩
    simp only [List.cons_append, runFiles]
    cases processFile p t fuel f ls s with
    | ok s2 => exact ih s2
    | fatal s2 => rfl
    | spin s2 => rfl

/-- C7 (counterexample): a run over two files whose only datapoints have
variances 100 (std 10) and 4 (std 2) completes with summary variance 4 —
the printed maximum standard deviation is 2, the last file's maximum, even
though the run observed a datapoint with standard deviation 10. -/
theorem C7_counterexample :
    (fullRun 100 50 20 "b" [("scan1.dat", fileBigVar), ("scan2.dat", fileSmallVar)]).summaryVariance
      = some 4 ∧
    ((fullRun 100 50 20 "b"
        [("scan1.dat", fileBigVar), ("scan2.dat", fileSmallVar)]).finalState.std_log.map
      StdEntry.variance) = [100, 4] ∧
    point_standard_deviation 4 = 2 ∧ point_standard_deviation 100 = 10 ∧
    ¬ ((10 : ℝ) ≤ 2) := by
  refine ⟨by with_unfolding_all decide, by with_unfolding_all decide, ?_, ?_, by norm_num⟩
  · unfold point_standard_deviation
    rw [show ((4 : ℚ) : ℝ) = (2 : ℝ) ^ 2 by norm_num, Real.sqrt_sq (by norm_num)]
  · unfold point_standard_deviation
    rw [show ((100 : ℚ) : ℝ) = (10 : ℝ) ^ 2 by norm_num, Real.sqrt_sq (by norm_num)]

/-- C7 (amended): the summary printed at the end of a completed run is the
maximum standard deviation over the datapoints of the last processed file
only: `standard_deviations_list` is re-initialised per file, so the summary
maximum ranges over exactly the std-log entries contributed by the last
file. -/
theorem C7_amended_summary_last_file (p t : ℚ) (fuel : ℕ) (choice : String)
    (fs : List (String × List Line)) (f : String) (ls : List Line)
    (hc : (fullRun p t fuel choice (fs ++ [(f, ls)])).isCompleted = true) :
    ∃ s0 new, runFiles p t fuel fs initSt = .ok s0 ∧
      (fullRun p t fuel choice (fs ++ [(f, ls)])).finalState.std_log
        = s0.std_log ++ new ∧
      (∀ e ∈ new, e.filename = f) ∧
      (fullRun p t fuel choice (fs ++ [(f, ls)])).finalState.standard_deviations_list
        = new.map StdEntry.variance ∧
      (fullRun p t fuel choice (fs ++ [(f, ls)])).summaryVariance
        = maxQ (new.map StdEntry.variance) := by
  unfold fullRun at hc ⊢
  rw [runFiles_append] at hc ⊢
  cases h0 : runFiles p t fuel fs initSt with
  | fatal s0 => rw [h0] at hc; simp [RunResult.isCompleted] at hc
  | spin s0 => rw [h0] at hc; simp [RunResult.isCompleted] at hc
  | ok s0 =>
    rw [h0] at hc
    dsimp only at hc ⊢
    simp only [runFiles] at hc ⊢
    obtain ⟨new, t1, t2, t3, t4⟩ := processFile_trace p t fuel f ls s0
    cases hp : processFile p t fuel f ls s0 with
    | fatal s1 => rw [hp] at hc; simp [RunResult.isCompleted] at hc
    | spin s1 => rw [hp] at hc; simp [RunResult.isCompleted] at hc
    | ok s1 =>
      rw [hp] at hc t1
      dsimp only at hc ⊢
      simp only [RunOutcome.state] at t1
      have hsl := t4 s1 hp
      cases hf : standard_deviation_threshold t s1.last s1 with
      | error e =>
        cases e <;> (rw [hf] at hc; simp [RunResult.isCompleted] at hc)
      | ok s2 =>
        rw [hf] at hc
        dsimp only at hc ⊢
        obtain ⟨f1, f2, f3, f4, f5, f6, f7⟩ := filter_preserves _ _ _ _ hf
        cases hm : maxQ s2.standard_deviations_list with
        | none => rw [hm] at hc; simp [RunResult.isCompleted] at hc
        | some m =>
          dsimp only
          refine ⟨s0, new, rfl, ?_, fun e he => (t2 e he).1, ?_, ?_⟩
          · simp only [RunResult.finalState, f1, t1]
          · simp only [RunResult.finalState, f2, hsl]
          · simp only [RunResult.summaryVariance]
            rw [← hsl, ← f2, hm]

/-- Witness for C7 (amended) on the two-file run of `C7_counterexample`:
the summary variance 4 is the maximum over exactly the entries the second
file contributed. -/
theorem C7_amended_summary_last_file_witness :
    ∃ s0 new,
      runFiles 100 50 20 [("scan1.dat", fileBigVar)] initSt = .ok s0 ∧
      (fullRun 100 50 20 "b"
          ([("scan1.dat", fileBigVar)] ++ [("scan2.dat", fileSmallVar)])).finalState.std_log
        = s0.std_log ++ new ∧
      (∀ e ∈ new, e.filename = "scan2.dat") ∧
      (fullRun 100 50 20 "b"
          ([("scan1.dat", fileBigVar)] ++ [("scan2.dat", fileSmallVar)])).finalState.standard_deviations_list
        = new.map StdEntry.variance ∧
      (fullRun 100 50 20 "b"
          ([("scan1.dat", fileBigVar)] ++ [("scan2.dat", fileSmallVar)])).summaryVariance
        = maxQ (new.map StdEntry.variance) :=
  C7_amended_summary_last_file 100 50 20 "b" [("scan1.dat", fileBigVar)]
    "scan2.dat" fileSmallVar (by with_unfolding_all decide)

/-- The float() loop parses a fully numeric token list to its values. -/
theorem sequenceFields_map_some (xs : List ℚ) :
    sequenceFields (xs.map some) = some xs := by
  induction xs with
  | nil => rfl
  | cons x xt ih => simp [sequenceFields, ih]

/-- The intensity slice of a well-formed data line is the sweep tokens when
there are any, otherwise the single sum-or-single token. -/
theorem intensitiesOf_shape (ke sumv : ℚ) (xs : List ℚ) :
    intensitiesOf (some ke :: (xs.map some ++ [some sumv, none]))
      = (if xs = [] then [sumv] else xs).map some := by
  rcases xs with _ | ⟨x0, xt⟩
  · simp [intensitiesOf]
  · have hlen : (some ke :: ((x0 :: xt).map some ++ [some sumv, none]) : Line).length
        = xt.length + 4 := by
      simp
    rw [if_neg (by simp)]
    simp only [intensitiesOf, hlen]
    rw [if_pos (by omega)]
    have h43 : xt.length + 4 - 3 = xt.length + 1 := by omega
    rw [h43]
    have hdrop : ((some ke :: ((x0 :: xt).map some ++ [some sumv, none]) : Line).drop 1)
        = (x0 :: xt).map some ++ [some sumv, none] := by simp
    rw [hdrop]
    exact List.take_left' (by simp)

/-- The sum-or-single column of a well-formed data line sits at index
`length - 2`. -/
theorem shape_getD (ke sumv : ℚ) (xs : List ℚ) :
    List.getD (some ke :: (xs.map some ++ [some sumv, none]) : Line)
      ((some ke :: (xs.map some ++ [some sumv, none]) : Line).length - 2) none
      = some sumv := by
  have hlen : (some ke :: (xs.map some ++ [some sumv, none]) : Line).length - 2
      = xs.length + 1 := by
    simp
  rw [hlen, List.getD_cons_succ, List.getD_eq_getElem?_getD,
    List.getElem?_append_right (by simp : (xs.map some).length ≤ xs.length)]
  simp

/-- The stored standard deviation of a multi-sweep datapoint equals the
population standard deviation over its sweep intensities with the code's
mean as reference. -/
theorem point_std_eq_specStdDev (xs : List ℚ) (mi : ℚ) :
    point_standard_deviation
        ((xs.map (fun x => (x - mi) * (x - mi))).sum / (xs.length : ℚ))
      = specStdDev xs mi xs.length := by
  unfold point_standard_deviation specStdDev
  have hfun : (fun x : ℚ => (x - mi) * (x - mi)) = fun x : ℚ => (x - mi) ^ 2 := by
    funext x
    ring
  rw [hfun]
  congr 1
  rw [Rat.cast_div, Rat.cast_natCast]

/-- The single-sweep case: the stored standard deviation is 0, and so is the
specification's formula with sweep count 0 (the single squared deviation
from the mean is itself 0). -/
theorem point_std_eq_specStdDev_single (sumv : ℚ) :
    point_standard_deviation
        ((([sumv].map (fun x => (x - sumv / 1) * (x - sumv / 1))).sum)
          / (([sumv].length : ℕ) : ℚ))
      = specStdDev [sumv] (sumv / 1) 0 := by
  have h0 : sumv - sumv / 1 = 0 := by
    rw [div_one]
    ring
  unfold point_standard_deviation specStdDev
  simp [h0]

/-- Evaluation of the loop-body tail on a well-formed data line: it reaches
the filter with the code's variance, completes normally, and records the
(binding energy, mean) pair and the std entry. -/
theorem lineTail_eval_shape (t : ℚ) (f : String) (be mi ke sumv : ℚ)
    (xs : List ℚ) (dn ln : ℕ) (s : St)
    (hbx : be ∈ s.xaxis) (hbfx : be ∈ s.fp_xaxis) :
    ∃ s5,
      lineTail t f (some ke :: (xs.map some ++ [some sumv, none])) be mi dn ln s
        = .next s5 ∧
      s5.inserted = s.inserted ++ [⟨f, be, mi, dn⟩] ∧
      s5.std_log = s.std_log ++ [⟨f, dn, ln,
        (((if xs = [] then [sumv] else xs).map
            (fun x => (x - mi) * (x - mi))).sum)
          / (((if xs = [] then [sumv] else xs).length : ℕ) : ℚ)⟩] := by
  have hne : ¬ (((if xs = [] then [sumv] else xs)).length = 0) := by
    rcases xs with _ | _ <;> simp
  unfold lineTail
  dsimp only
  rw [intensitiesOf_shape, sequenceFields_map_some]
  dsimp only
  rw [if_neg hne]
  split
  · next s5 hfil =>
    obtain ⟨i1, i2, i3, i4, i5, i6, i7⟩ := filter_preserves _ _ _ _ hfil
    refine ⟨s5, rfl, ?_, ?_⟩
    · rw [i3]
    · rw [i1]
  · next e hfil =>
    exact absurd hfil (by
      obtain ⟨s5, hs5⟩ := filter_ok_of_mem t
        ⟨(((if xs = [] then [sumv] else xs)).map
            (fun x => (x - mi) * (x - mi))).sum
          / ((((if xs = [] then [sumv] else xs)).length : ℕ) : ℚ), be, mi, dn⟩
        { s with yaxis := s.yaxis ++ [mi]
                 fp_yaxis := s.fp_yaxis ++ [mi]
                 inserted := s.inserted ++ [⟨f, be, mi, dn⟩]
                 standard_deviations_list := s.standard_deviations_list ++
                   [(((if xs = [] then [sumv] else xs)).map
                       (fun x => (x - mi) * (x - mi))).sum
                     / ((((if xs = [] then [sumv] else xs)).length : ℕ) : ℚ)]
                 std_log := s.std_log ++ [⟨f, dn, ln,
                   (((if xs = [] then [sumv] else xs)).map
                       (fun x => (x - mi) * (x - mi))).sum
                     / ((((if xs = [] then [sumv] else xs)).length : ℕ) : ℚ)⟩]
                 last := some ⟨(((if xs = [] then [sumv] else xs)).map
                       (fun x => (x - mi) * (x - mi))).sum
                     / ((((if xs = [] then [sumv] else xs)).length : ℕ) : ℚ), be, mi, dn⟩ }
        (by simpa using hbx) (by simpa using hbfx) (by simp) (by simp)
      simp [hs5])

/-- Evaluation of the loop body on a well-formed data line with any number
of sweeps: processing completes normally, the recorded mean intensity is the
sum-or-single column over max(sweep count, 1), and the recorded variance is
the specification's population formula. -/
theorem lineStep_shape_eval (p t : ℚ) (f : String) (s : St) (ke sumv : ℚ)
    (xs : List ℚ) :
    ∃ s2 v,
      lineStep p t f (some ke :: (xs.map some ++ [some sumv, none])) s = .next s2 ∧
      s2.inserted = s.inserted ++
        [⟨f, p - ke, specMeanIntensity sumv xs.length, s.line_number⟩] ∧
      s2.std_log = s.std_log ++ [⟨f, s.line_number, s.line_number + 1, v⟩] ∧
      point_standard_deviation v
        = specStdDev (if xs = [] then [sumv] else xs)
            (specMeanIntensity sumv xs.length) xs.length := by
  rcases xs with _ | ⟨x0, xt⟩
  · have hL : (some ke :: (([] : List ℚ).map some ++ [some sumv, none]) : Line).length
        = 3 := by simp
    have hmean : specMeanIntensity sumv ([] : List ℚ).length = sumv / 1 := by
      simp [specMeanIntensity]
    unfold lineStep
    dsimp only
    simp only [List.head?_cons]
    rw [shape_getD]
    dsimp only
    rw [if_neg (by rw [hL]; norm_num), if_pos (by rw [hL]; norm_num)]
    obtain ⟨s5, e1, e2, e3⟩ := lineTail_eval_shape t f (p - ke) (sumv / 1) ke sumv []
      (s.line_number + 1 - 1) (s.line_number + 1)
      { s with line_number := s.line_number + 1
               xaxis := s.xaxis ++ [p - ke], fp_xaxis := s.fp_xaxis ++ [p - ke] }
      (by simp) (by simp)
    refine ⟨s5,
      (((if ([] : List ℚ) = [] then [sumv] else []).map
          (fun x => (x - sumv / 1) * (x - sumv / 1))).sum)
        / (((if ([] : List ℚ) = [] then [sumv] else []).length : ℕ) : ℚ),
      e1, ?_, ?_, ?_⟩
    · rw [e2]
      simp [specMeanIntensity]
    · rw [e3]
      simp
    · rw [hmean]
      simp only [if_pos rfl]
      exact point_std_eq_specStdDev_single sumv
  · have hL : (some ke :: ((x0 :: xt).map some ++ [some sumv, none]) : Line).length
        = xt.length + 4 := by simp
    have hmi : sumv / ((((some ke :: ((x0 :: xt).map some ++ [some sumv, none]) :
          Line).length : ℤ) - 2 - 1 : ℤ) : ℚ)
        = specMeanIntensity sumv (x0 :: xt).length := by
      have hmax : max (xt.length + 1) 1 = xt.length + 1 := by omega
      simp only [specMeanIntensity, hL, List.length_cons, hmax]
      push_cast
      ring_nf
    unfold lineStep
    dsimp only
    simp only [List.head?_cons]
    rw [shape_getD]
    dsimp only
    rw [if_pos (by rw [hL]; push_cast; omega)]
    obtain ⟨s5, e1, e2, e3⟩ := lineTail_eval_shape t f (p - ke)
      (sumv / ((((some ke :: ((x0 :: xt).map some ++ [some sumv, none]) :
          Line).length : ℤ) - 2 - 1 : ℤ) : ℚ)) ke sumv (x0 :: xt)
      (s.line_number + 1 - 1) (s.line_number + 1)
      { s with line_number := s.line_number + 1
               xaxis := s.xaxis ++ [p - ke], fp_xaxis := s.fp_xaxis ++ [p - ke] }
      (by simp) (by simp)
    refine ⟨s5,
      (((if (x0 :: xt : List ℚ) = [] then [sumv] else x0 :: xt).map
          (fun x => (x - sumv / ((((some ke :: ((x0 :: xt).map some ++
              [some sumv, none]) : Line).length : ℤ) - 2 - 1 : ℤ) : ℚ))
            * (x - sumv / ((((some ke :: ((x0 :: xt).map some ++
              [some sumv, none]) : Line).length : ℤ) - 2 - 1 : ℤ) : ℚ)))).sum)
        / (((if (x0 :: xt : List ℚ) = [] then [sumv] else x0 :: xt).length : ℕ) : ℚ),
      e1, ?_, ?_, ?_⟩
    · rw [e2, hmi]
      simp
    · rw [e3]
      simp
    · rw [hmi]
      simp only [if_neg (List.cons_ne_nil x0 xt)]
      exact point_std_eq_specStdDev (x0 :: xt) (specMeanIntensity sumv (x0 :: xt).length)

/-- C1: for every parsed datapoint with sweep count n, the recorded
mean_intensity is the sum-or-single column divided by max(n, 1), and the
recorded std_dev is the population standard deviation over the
sweep-intensities list with divisor n and reference mean mean_intensity
(for n = 0 both the squared-deviation sum and the stored variance are 0,
with the rational convention x / 0 = 0); in particular a two-sweep line with
intensities [10, 20] and sum 30 records mean_intensity 15 and std_dev 5. -/
theorem C1_mean_and_std :
    (∀ (p t : ℚ) (f : String) (s : St) (ke sumv : ℚ) (xs : List ℚ),
      ∃ s2 v,
        lineStep p t f (some ke :: (xs.map some ++ [some sumv, none])) s
          = .next s2 ∧
        s2.inserted = s.inserted ++
          [⟨f, p - ke, specMeanIntensity sumv xs.length, s.line_number⟩] ∧
        s2.std_log = s.std_log ++ [⟨f, s.line_number, s.line_number + 1, v⟩] ∧
        point_standard_deviation v
          = specStdDev (if xs = [] then [sumv] else xs)
              (specMeanIntensity sumv xs.length) xs.length) ∧
    ((lineStep 1000 7 "scan1.dat" (twoSweepLine 985 10 20 30)
        initSt).state.inserted.map InsEntry.mean_intensity = [15]) ∧
    ((lineStep 1000 7 "scan1.dat" (twoSweepLine 985 10 20 30)
        initSt).state.std_log.map StdEntry.variance = [25]) ∧
    point_standard_deviation 25 = 5 := by
  refine ⟨fun p t f s ke sumv xs => lineStep_shape_eval p t f s ke sumv xs,
    by with_unfolding_all decide, by with_unfolding_all decide, ?_⟩
  unfold point_standard_deviation
  rw [show ((25 : ℚ) : ℝ) = (5 : ℝ) ^ 2 by norm_num, Real.sqrt_sq (by norm_num)]

end Xps
